import Mathlib

/-!
Verification of `ddm_fpt_lib.c`, a library computing first-passage-time
densities of drift-diffusion models.  Doubles are modelled as real numbers,
arrays as functions `ℕ → ℝ` (or lists where the operation is list-like),
`malloc` success as boolean oracles, and the potentially non-terminating
series-accumulation loops as fuel-indexed functions returning `Option ℝ`
(`none` means the fuel was exhausted before the stopping test fired).
Definitions are transliterated from the C source; line numbers in the
comments refer to `src/ddm_fpt_lib/ddm_fpt_lib.c`.
-/

namespace DdmFpt

open Filter Topology

/-! ### Allocation prologue of `ddm_fpt_full_leak` (lines 177-188) -/

/-- Outcome of the scratch-allocation prologue of `ddm_fpt_full_leak`:
either the checked failure return `-1` (outputs untouched, all four pointers
passed to `free`), or the function proceeds past the check.  If it proceeds
while `disc` or `disc2` failed to allocate, the forward pass dereferences a
NULL pointer (lines 202, 217). -/
inductive LeakAllocOutcome where
  | retFail
  | derefNull
  | proceed
deriving DecidableEq

/-- Allocation prologue of `ddm_fpt_full_leak` (lines 177-188).  Four arrays
are allocated, but the NULL check (line 182) tests only `cum_mu` and
`cum_sig2`; `disc` and `disc2` are written unconditionally afterwards. -/
def ddm_fpt_full_leak_alloc (ok_cum_mu ok_cum_sig2 ok_disc ok_disc2 : Bool) :
    LeakAllocOutcome :=
  if !ok_cum_mu || !ok_cum_sig2 then .retFail
  else if ok_disc && ok_disc2 then .proceed
  else .derefNull

/-- Success return value of `ddm_fpt_full` (line 138). -/
def ddm_fpt_full_ret_success : ℤ := 0

/-- Success return value of `ddm_fpt_full_leak` (line 285). -/
def ddm_fpt_full_leak_ret_success : ℤ := 0

/-! ### Indices read from `disc` by the `disc2` fill loop (lines 215-217) -/

/-- The loop `for (j = 0; j <= floor((k_max-1)/2); ++j) disc2[j] = disc[2*j+1]`
reads `disc` at the indices `2*j+1`.  The `disc` array has `k_max` elements. -/
def disc2_fill_reads (k_max : ℕ) : List ℕ :=
  (List.range ((k_max - 1) / 2 + 1)).map fun j => 2 * j + 1

/-! ### Indices of `bound_deriv` accessed by `ddm_fpt` (lines 331-336, 349),
`ddm_fpt_const_mu` (lines 436-439, 452-453) and `ddm_fpt_w` (lines 710-715,
723).  All three build and consume the scratch array the same way:
the loop `for (j = 1; j < k_max; ++j)` writes index `j-1`, the copy
`bound_deriv[k_max-1] = bound_deriv[k_max-2]` reads `k_max-2` and writes
`k_max-1`, and the fill loop reads index `k` for `k = 0 .. k_max-1`.
Indices are signed, as in C. -/

/-- All indices at which the `bound_deriv` scratch array (of size `k_max`)
is read or written by `ddm_fpt`, `ddm_fpt_const_mu` and `ddm_fpt_w`. -/
def bound_deriv_accesses (k_max : ℕ) : List ℤ :=
  ((List.range (k_max - 1)).map fun (j : ℕ) => (j : ℤ)) ++
    [(k_max : ℤ) - 2] ++ [(k_max : ℤ) - 1] ++
    ((List.range k_max).map fun (j : ℕ) => (j : ℤ))

/-! ### `mnorm` (lines 770-786), modelled on lists of length `n` -/

/-- First phase of `mnorm` (lines 775-780): negative elements are set to 0;
the surviving (non-negative) elements are summed, which equals the sum of the
clamped sequence. -/
noncomputable def clampNeg (g : List ℝ) : List ℝ :=
  g.map fun x => if x < 0 then 0 else x

/-- Mass normalisation `mnorm` (lines 770-786).  The argument lists hold the
first `n` elements of the C arrays, so the C parameter `n` is their length.
Returns the updated `(g1, g2)`. -/
noncomputable def mnorm (g1 g2 : List ℝ) (delta_t : ℝ) : List ℝ × List ℝ :=
  let c1 := clampNeg g1
  let c2 := clampNeg g2
  let g1_sum := c1.sum
  let g2_sum := c2.sum
  let p := g1_sum / (g1_sum + g2_sum)
  (c1.set (c1.length - 1) (c1.getD (c1.length - 1) 0 + (p / delta_t - g1_sum)),
   c2.set (c2.length - 1) (c2.getD (c2.length - 1) 0 + ((1 - p) / delta_t - g2_sum)))

/-! ### Series evaluator (lines 489-636) -/

/-- Series tolerance constant `SERIES_ACC` (line 22). -/
noncomputable def SERIES_ACC : ℝ := 1e-29

/-- Decision rule `useshorttseries` (lines 492-496), Navarro & Fuss (2009)
Eq. (13); returns 1 for the short-time expansion, 0 for the long-time one. -/
noncomputable def useshorttseries (t tol : ℝ) : ℤ :=
  if 2 + Real.sqrt (-2 * t * Real.log (2 * tol * Real.sqrt (2 * Real.pi * t))) <
      Real.sqrt (-2 * Real.log (Real.pi * t * tol) / (t * (Real.pi * Real.pi)))
    then 1 else 0

/-- Term added in the first half of an iteration of `fpt_asymshortt`
(lines 513-515): `c * exp(-c*c/t)` with `c = w + 2k` and `t` already
doubled. -/
noncomputable def shortIncr (t2 w : ℝ) (k : ℕ) : ℝ :=
  (w + 2 * (k : ℝ)) * Real.exp (-(w + 2 * (k : ℝ)) * (w + 2 * (k : ℝ)) / t2)

/-- Term added in the second half of an iteration of `fpt_asymshortt`
(lines 518-520): `c * exp(-c*c/t)` with `c = w - 2k`. -/
noncomputable def shortIncrNeg (t2 w : ℝ) (k : ℕ) : ℝ :=
  (w - 2 * (k : ℝ)) * Real.exp (-(w - 2 * (k : ℝ)) * (w - 2 * (k : ℝ)) / t2)

/-- The `while (1)` accumulation loop of `fpt_asymshortt` (lines 511-524),
with explicit fuel; `none` models not having exited within `fuel`
iterations. `k` starts at 1 and `f` at `w * exp(-w*w/t)`. -/
noncomputable def fpt_asymshorttLoop (t2 w tolb : ℝ) : ℕ → ℕ → ℝ → Option ℝ
  | 0, _, _ => none
  | fuel + 1, k, f =>
    let f1 := f + shortIncr t2 w k
    if |shortIncr t2 w k| < tolb then some f1
    else
      let f2 := f1 + shortIncrNeg t2 w k
      if |shortIncrNeg t2 w k| < tolb then some f2
      else fpt_asymshorttLoop t2 w tolb fuel (k + 1) f2

/-- Short-time series `fpt_asymshortt` (lines 502-525): the scale
`b = pow(t,-1.5)/sqrt(2 pi)`, the doubled `t`, the seed term, the loop,
and the final multiplication by `b`. -/
noncomputable def fpt_asymshortt (fuel : ℕ) (t w tol : ℝ) : Option ℝ :=
  let b := t ^ (-(1.5 : ℝ)) / Real.sqrt (2 * Real.pi)
  (fpt_asymshorttLoop (t * 2) w (tol * b) fuel 1
      (w * Real.exp (-w * w / (t * 2)))).map fun f => f * b

/-- Term added per iteration of `fpt_asymlongt` (line 541):
`k * exp(-(k pi)^2 t / 2) * sin(k pi w)`. -/
noncomputable def longIncr (t w : ℝ) (k : ℕ) : ℝ :=
  (k : ℝ) * Real.exp (-(((k : ℝ) * Real.pi) * ((k : ℝ) * Real.pi)) * t / 2) *
    Real.sin ((k : ℝ) * Real.pi * w)

/-- The accumulation loop of `fpt_asymlongt` (lines 538-546) with fuel;
`k` starts at 1 and `f` at 0. -/
noncomputable def fpt_asymlongtLoop (t w tolpi : ℝ) : ℕ → ℕ → ℝ → Option ℝ
  | 0, _, _ => none
  | fuel + 1, k, f =>
    let f1 := f + longIncr t w k
    if |longIncr t w k| < tolpi then some f1
    else fpt_asymlongtLoop t w tolpi fuel (k + 1) f1

/-- Long-time series `fpt_asymlongt` (lines 531-547). -/
noncomputable def fpt_asymlongt (fuel : ℕ) (t w tol : ℝ) : Option ℝ :=
  (fpt_asymlongtLoop t w (tol * Real.pi) fuel 1 0).map fun f => f * Real.pi

/-- Asymmetric fast series `fpt_asymfastseries` (lines 554-560): returns 0
exactly when `t = 0`, otherwise dispatches on `useshorttseries`. -/
noncomputable def fpt_asymfastseries (fuel : ℕ) (t w tol : ℝ) : Option ℝ :=
  if t = 0 then some 0
  else if useshorttseries t tol = 1 then fpt_asymshortt fuel t w tol
  else fpt_asymlongt fuel t w tol

/-- Term of `fpt_symseries` (lines 598, 603): `twok * exp(-(twok*twok)*a)`. -/
noncomputable def symIncr (a : ℝ) (twok : ℕ) : ℝ :=
  (twok : ℝ) * Real.exp (-((twok : ℝ) * (twok : ℝ)) * a)

/-- The accumulation loop of `fpt_symseries` (lines 596-608) with fuel;
`twok` starts at 3 and advances by 2 twice per iteration; the first term of
an iteration is subtracted, the second added. -/
noncomputable def fpt_symseriesLoop (a tolb : ℝ) : ℕ → ℕ → ℝ → Option ℝ
  | 0, _, _ => none
  | fuel + 1, twok, f =>
    let f1 := f - symIncr a twok
    if symIncr a twok < tolb then some f1
    else
      let f2 := f1 + symIncr a (twok + 2)
      if symIncr a (twok + 2) < tolb then some f2
      else fpt_symseriesLoop a tolb fuel (twok + 4) f2

/-- Symmetric series `fpt_symseries` (lines 589-609); the parameter `t` is
unused in the C body and kept for signature fidelity. -/
noncomputable def fpt_symseries (fuel : ℕ) (t a b tol : ℝ) : Option ℝ :=
  let _ := t
  (fpt_symseriesLoop a (tol * b) fuel 3 (Real.exp (-a))).map fun f => f * b

/-- Symmetric fast series `fpt_symfastseries` (lines 616-623): returns 0
exactly when `t = 0`, otherwise dispatches on `useshorttseries`. -/
noncomputable def fpt_symfastseries (fuel : ℕ) (t tol : ℝ) : Option ℝ :=
  if t = 0 then some 0
  else if useshorttseries t tol = 1 then
    fpt_symseries fuel t (1 / (8 * t)) (1 / Real.sqrt (8 * Real.pi * t ^ 3)) tol
  else fpt_symseries fuel t (t * (Real.pi * Real.pi) / 2) Real.pi tol

/-- Closed-form upper-boundary density `fpt_symup` (lines 633-636). -/
noncomputable def fpt_symup (fuel : ℕ) (t c1 c2 c3 : ℝ) : Option ℝ :=
  (fpt_symfastseries fuel (t / c1) SERIES_ACC).map fun s =>
    Real.exp (c3 - c2 * t) / c1 * s

/-- Constant drift / constant bound solver `ddm_fpt_const` (lines 648-668),
value stored at step `i` (where `t = (i+1) * delta_t`). -/
noncomputable def ddm_fpt_const (fuel : ℕ) (mu bound delta_t : ℝ) (i : ℕ) :
    Option (ℝ × ℝ) :=
  let c1 := 4 * (bound * bound)
  let c2 := mu * mu / 2
  let c3 := mu * bound
  let c4 := Real.exp (-2 * c3)
  (fpt_symup fuel (((i : ℝ) + 1) * delta_t) c1 c2 c3).map fun g =>
    (max g 0, max (c4 * g) 0)

/-! ### General recursive solver `ddm_fpt_full` (lines 43-139) -/

/-- The constant `sqrt_2_pi = 1 / sqrt(2 pi)` (line 65). -/
noncomputable def sqrt_2_pi : ℝ := 1 / Real.sqrt (2 * Real.pi)

/-- Cumulative drift integral of `ddm_fpt_full` (lines 69-78) and of
`ddm_fpt` (lines 329-333): running sum of `delta_t * mu[j]`. -/
noncomputable def cum_mu (mu : ℕ → ℝ) (delta_t : ℝ) : ℕ → ℝ
  | 0 => delta_t * mu 0
  | j + 1 => cum_mu mu delta_t j + delta_t * mu (j + 1)

/-- Cumulative variance integral of `ddm_fpt_full` (lines 71-77). -/
noncomputable def cum_sig2 (sig2 : ℕ → ℝ) (delta_t : ℝ) : ℕ → ℝ
  | 0 => delta_t * sig2 0
  | j + 1 => cum_sig2 sig2 delta_t j + delta_t * sig2 (j + 1)

/-- Initial (direct-transition) value of `g1` in `ddm_fpt_full`
(lines 83-96). -/
noncomputable def fullInit1 (mu sig2 b_up b_up_deriv : ℕ → ℝ) (delta_t : ℝ)
    (k : ℕ) : ℝ :=
  let b_up_k := b_up k
  let cum_mu_k := cum_mu mu delta_t k
  let cum_sig2_k := cum_sig2 sig2 delta_t k
  let b_up_deriv_k := b_up_deriv k - mu k
  (-sqrt_2_pi / Real.sqrt cum_sig2_k *
      Real.exp (-0.5 * (b_up_k - cum_mu_k) * (b_up_k - cum_mu_k) / cum_sig2_k) *
      (b_up_deriv_k - sig2 k * (b_up_k - cum_mu_k) / cum_sig2_k))

/-- Initial (direct-transition) value of `g2` in `ddm_fpt_full`
(lines 97-100). -/
noncomputable def fullInit2 (mu sig2 b_lo b_lo_deriv : ℕ → ℝ) (delta_t : ℝ)
    (k : ℕ) : ℝ :=
  let b_lo_k := b_lo k
  let cum_mu_k := cum_mu mu delta_t k
  let cum_sig2_k := cum_sig2 sig2 delta_t k
  let b_lo_deriv_k := b_lo_deriv k - mu k
  sqrt_2_pi / Real.sqrt cum_sig2_k *
      Real.exp (-0.5 * (b_lo_k - cum_mu_k) * (b_lo_k - cum_mu_k) / cum_sig2_k) *
      (b_lo_deriv_k - sig2 k * (b_lo_k - cum_mu_k) / cum_sig2_k)

/-- Correction term added to `g1_k` in `ddm_fpt_full` for a previous step `j`
with already-computed densities `g1j`, `g2j` (lines 102-120). -/
noncomputable def fullCorr1 (mu sig2 b_lo b_up b_up_deriv : ℕ → ℝ)
    (delta_t : ℝ) (k j : ℕ) (g1j g2j : ℝ) : ℝ :=
  let cum_sig2_diff_j := cum_sig2 sig2 delta_t k - cum_sig2 sig2 delta_t j
  let cum_mu_diff_j := cum_mu mu delta_t j - cum_mu mu delta_t k
  let b_up_k_up_j_diff := b_up k - b_up j + cum_mu_diff_j
  let b_up_k_lo_j_diff := b_up k - b_lo j + cum_mu_diff_j
  let b_up_deriv_k := b_up_deriv k - mu k
  delta_t * sqrt_2_pi / Real.sqrt cum_sig2_diff_j *
    (g1j * Real.exp (-0.5 * b_up_k_up_j_diff * b_up_k_up_j_diff / cum_sig2_diff_j) *
        (b_up_deriv_k - sig2 k * b_up_k_up_j_diff / cum_sig2_diff_j) +
      g2j * Real.exp (-0.5 * b_up_k_lo_j_diff * b_up_k_lo_j_diff / cum_sig2_diff_j) *
        (b_up_deriv_k - sig2 k * b_up_k_lo_j_diff / cum_sig2_diff_j))

/-- Correction term subtracted from `g2_k` in `ddm_fpt_full` for a previous
step `j` (lines 121-129). -/
noncomputable def fullCorr2 (mu sig2 b_lo b_up b_lo_deriv : ℕ → ℝ)
    (delta_t : ℝ) (k j : ℕ) (g1j g2j : ℝ) : ℝ :=
  let cum_sig2_diff_j := cum_sig2 sig2 delta_t k - cum_sig2 sig2 delta_t j
  let cum_mu_diff_j := cum_mu mu delta_t j - cum_mu mu delta_t k
  let b_lo_k_up_j_diff := b_lo k - b_up j + cum_mu_diff_j
  let b_lo_k_lo_j_diff := b_lo k - b_lo j + cum_mu_diff_j
  let b_lo_deriv_k := b_lo_deriv k - mu k
  delta_t * sqrt_2_pi / Real.sqrt cum_sig2_diff_j *
    (g1j * Real.exp (-0.5 * b_lo_k_up_j_diff * b_lo_k_up_j_diff / cum_sig2_diff_j) *
        (b_lo_deriv_k - sig2 k * b_lo_k_up_j_diff / cum_sig2_diff_j) +
      g2j * Real.exp (-0.5 * b_lo_k_lo_j_diff * b_lo_k_lo_j_diff / cum_sig2_diff_j) *
        (b_lo_deriv_k - sig2 k * b_lo_k_lo_j_diff / cum_sig2_diff_j))

/-- The pair of stored densities `(g1[k], g2[k])` computed by `ddm_fpt_full`
(lines 81-134): initial value plus corrections over all `j < k` (which use
the previously stored, clamped densities), then clamped at 0 (lines
131-133). -/
noncomputable def ddm_fpt_full (mu sig2 b_lo b_up b_lo_deriv b_up_deriv : ℕ → ℝ)
    (delta_t : ℝ) : ℕ → ℝ × ℝ
  | k =>
    let G := fun j : {x // x ∈ Finset.range k} =>
      ddm_fpt_full mu sig2 b_lo b_up b_lo_deriv b_up_deriv delta_t j.1
    let g1_k := fullInit1 mu sig2 b_up b_up_deriv delta_t k +
      ∑ j ∈ (Finset.range k).attach,
        fullCorr1 mu sig2 b_lo b_up b_up_deriv delta_t k j.1 (G j).1 (G j).2
    let g2_k := fullInit2 mu sig2 b_lo b_lo_deriv delta_t k -
      ∑ j ∈ (Finset.range k).attach,
        fullCorr2 mu sig2 b_lo b_up b_lo_deriv delta_t k j.1 (G j).1 (G j).2
    (max g1_k 0, max g2_k 0)
termination_by k => k
decreasing_by
  exact Finset.mem_range.mp j.2

/-! ### Leaky recursive solver `ddm_fpt_full_leak` (lines 161-286) -/

/-- One-step discount `exp_leak = exp(-delta_t * inv_leak)` (line 193). -/
noncomputable def exp_leak (delta_t inv_leak : ℝ) : ℝ :=
  Real.exp (-delta_t * inv_leak)

/-- Two-step discount `exp2_leak = exp(-2 * delta_t * inv_leak)`
(line 194). -/
noncomputable def exp2_leak (delta_t inv_leak : ℝ) : ℝ :=
  Real.exp (-2 * delta_t * inv_leak)

/-- Leak-discounted cumulative drift (lines 197-205):
`cum_mu[j] = exp_leak * cum_mu[j-1] + delta_t * mu[j]`. -/
noncomputable def cum_mu_leak (mu : ℕ → ℝ) (delta_t inv_leak : ℝ) : ℕ → ℝ
  | 0 => delta_t * mu 0
  | j + 1 => exp_leak delta_t inv_leak * cum_mu_leak mu delta_t inv_leak j +
      delta_t * mu (j + 1)

/-- Leak-discounted cumulative variance (lines 199-207):
`cum_sig2[j] = exp2_leak * cum_sig2[j-1] + delta_t * sig2[j]`. -/
noncomputable def cum_sig2_leak (sig2 : ℕ → ℝ) (delta_t inv_leak : ℝ) : ℕ → ℝ
  | 0 => delta_t * sig2 0
  | j + 1 => exp2_leak delta_t inv_leak * cum_sig2_leak sig2 delta_t inv_leak j +
      delta_t * sig2 (j + 1)

/-- One-step discount sequence `disc` (lines 201-209):
`disc[0] = exp_leak`, `disc[j] = disc[j-1] * exp_leak`. -/
noncomputable def disc (delta_t inv_leak : ℝ) : ℕ → ℝ
  | 0 => exp_leak delta_t inv_leak
  | j + 1 => disc delta_t inv_leak j * exp_leak delta_t inv_leak

/-- Two-step discount sequence `disc2` (lines 215-222): for
`j ≤ floor((k_max-1)/2)` it copies `disc[2j+1]`, afterwards it multiplies by
`exp2_leak`.  This is the IDEALIZED model: it treats `disc` as the total
mathematical sequence, whereas for odd `k_max` the C code actually reads
`disc[k_max]`, one past the end of the allocation (see `disc2_fill_reads`),
obtaining an unspecified value.  The memory-faithful variant that keeps the
unspecified value is `disc2_mem`. -/
noncomputable def disc2 (delta_t inv_leak : ℝ) (k_max : ℕ) : ℕ → ℝ
  | 0 => disc delta_t inv_leak 1
  | j + 1 =>
    if j + 1 ≤ (k_max - 1) / 2 then disc delta_t inv_leak (2 * (j + 1) + 1)
    else disc2 delta_t inv_leak k_max j * exp2_leak delta_t inv_leak

/-- Memory-faithful variant of `disc2` (lines 215-222): the fill loop copies
`disc[2j+1]` only when `2j+1 < k_max` is actually inside the `disc`
allocation; otherwise (odd `k_max`, last fill iteration — and `k_max = 1`,
where already `disc[1]` is out of bounds) the read is out of bounds and
yields the unspecified value `junk`, modelled as a free parameter. -/
noncomputable def disc2_mem (delta_t inv_leak : ℝ) (k_max : ℕ) (junk : ℝ) :
    ℕ → ℝ
  | 0 => if 2 * 0 + 1 < k_max then disc delta_t inv_leak (2 * 0 + 1) else junk
  | j + 1 =>
    if j + 1 ≤ (k_max - 1) / 2 then
      (if 2 * (j + 1) + 1 < k_max then disc delta_t inv_leak (2 * (j + 1) + 1)
       else junk)
    else disc2_mem delta_t inv_leak k_max junk j * exp2_leak delta_t inv_leak

/-- Initial value of `g1` in `ddm_fpt_full_leak` (lines 227-240); the
boundary derivative gains the term `inv_leak * b_up[k]` (line 233). -/
noncomputable def leakInit1 (mu sig2 b_up b_up_deriv : ℕ → ℝ)
    (inv_leak delta_t : ℝ) (k : ℕ) : ℝ :=
  let b_up_k := b_up k
  let cum_mu_k := cum_mu_leak mu delta_t inv_leak k
  let cum_sig2_k := cum_sig2_leak sig2 delta_t inv_leak k
  let b_up_deriv_k := b_up_deriv k + inv_leak * b_up_k - mu k
  (-sqrt_2_pi / Real.sqrt cum_sig2_k *
      Real.exp (-0.5 * (b_up_k - cum_mu_k) * (b_up_k - cum_mu_k) / cum_sig2_k) *
      (b_up_deriv_k - sig2 k * (b_up_k - cum_mu_k) / cum_sig2_k))

/-- Initial value of `g2` in `ddm_fpt_full_leak` (lines 234, 241-244). -/
noncomputable def leakInit2 (mu sig2 b_lo b_lo_deriv : ℕ → ℝ)
    (inv_leak delta_t : ℝ) (k : ℕ) : ℝ :=
  let b_lo_k := b_lo k
  let cum_mu_k := cum_mu_leak mu delta_t inv_leak k
  let cum_sig2_k := cum_sig2_leak sig2 delta_t inv_leak k
  let b_lo_deriv_k := b_lo_deriv k + inv_leak * b_lo_k - mu k
  sqrt_2_pi / Real.sqrt cum_sig2_k *
      Real.exp (-0.5 * (b_lo_k - cum_mu_k) * (b_lo_k - cum_mu_k) / cum_sig2_k) *
      (b_lo_deriv_k - sig2 k * (b_lo_k - cum_mu_k) / cum_sig2_k)

/-- Correction term added to `g1_k` in `ddm_fpt_full_leak` (lines 246-265);
the cross-step quantities are rescaled by `disc[k-j-1]` and
`disc2[k-j-1]`. -/
noncomputable def leakCorr1 (mu sig2 b_lo b_up b_up_deriv : ℕ → ℝ)
    (inv_leak delta_t : ℝ) (k_max k j : ℕ) (g1j g2j : ℝ) : ℝ :=
  let disc_j := disc delta_t inv_leak (k - j - 1)
  let cum_sig2_diff_j := cum_sig2_leak sig2 delta_t inv_leak k -
    disc2 delta_t inv_leak k_max (k - j - 1) * cum_sig2_leak sig2 delta_t inv_leak j
  let cum_mu_diff_j := disc_j * cum_mu_leak mu delta_t inv_leak j -
    cum_mu_leak mu delta_t inv_leak k
  let b_up_k_up_j_diff := b_up k - disc_j * b_up j + cum_mu_diff_j
  let b_up_k_lo_j_diff := b_up k - disc_j * b_lo j + cum_mu_diff_j
  let b_up_deriv_k := b_up_deriv k + inv_leak * b_up k - mu k
  delta_t * sqrt_2_pi / Real.sqrt cum_sig2_diff_j *
    (g1j * Real.exp (-0.5 * b_up_k_up_j_diff * b_up_k_up_j_diff / cum_sig2_diff_j) *
        (b_up_deriv_k - sig2 k * b_up_k_up_j_diff / cum_sig2_diff_j) +
      g2j * Real.exp (-0.5 * b_up_k_lo_j_diff * b_up_k_lo_j_diff / cum_sig2_diff_j) *
        (b_up_deriv_k - sig2 k * b_up_k_lo_j_diff / cum_sig2_diff_j))

/-- Correction term subtracted from `g2_k` in `ddm_fpt_full_leak`
(lines 266-274). -/
noncomputable def leakCorr2 (mu sig2 b_lo b_up b_lo_deriv : ℕ → ℝ)
    (inv_leak delta_t : ℝ) (k_max k j : ℕ) (g1j g2j : ℝ) : ℝ :=
  let disc_j := disc delta_t inv_leak (k - j - 1)
  let cum_sig2_diff_j := cum_sig2_leak sig2 delta_t inv_leak k -
    disc2 delta_t inv_leak k_max (k - j - 1) * cum_sig2_leak sig2 delta_t inv_leak j
  let cum_mu_diff_j := disc_j * cum_mu_leak mu delta_t inv_leak j -
    cum_mu_leak mu delta_t inv_leak k
  let b_lo_k_up_j_diff := b_lo k - disc_j * b_up j + cum_mu_diff_j
  let b_lo_k_lo_j_diff := b_lo k - disc_j * b_lo j + cum_mu_diff_j
  let b_lo_deriv_k := b_lo_deriv k + inv_leak * b_lo k - mu k
  delta_t * sqrt_2_pi / Real.sqrt cum_sig2_diff_j *
    (g1j * Real.exp (-0.5 * b_lo_k_up_j_diff * b_lo_k_up_j_diff / cum_sig2_diff_j) *
        (b_lo_deriv_k - sig2 k * b_lo_k_up_j_diff / cum_sig2_diff_j) +
      g2j * Real.exp (-0.5 * b_lo_k_lo_j_diff * b_lo_k_lo_j_diff / cum_sig2_diff_j) *
        (b_lo_deriv_k - sig2 k * b_lo_k_lo_j_diff / cum_sig2_diff_j))

/-- The pair of stored densities `(g1[k], g2[k])` computed by
`ddm_fpt_full_leak` on the success path (lines 225-279), with the final
clamping at 0 (lines 277-278). -/
noncomputable def ddm_fpt_full_leak
    (mu sig2 b_lo b_up b_lo_deriv b_up_deriv : ℕ → ℝ)
    (inv_leak delta_t : ℝ) (k_max : ℕ) : ℕ → ℝ × ℝ
  | k =>
    let G := fun j : {x // x ∈ Finset.range k} =>
      ddm_fpt_full_leak mu sig2 b_lo b_up b_lo_deriv b_up_deriv inv_leak delta_t
        k_max j.1
    let g1_k := leakInit1 mu sig2 b_up b_up_deriv inv_leak delta_t k +
      ∑ j ∈ (Finset.range k).attach,
        leakCorr1 mu sig2 b_lo b_up b_up_deriv inv_leak delta_t k_max k j.1
          (G j).1 (G j).2
    let g2_k := leakInit2 mu sig2 b_lo b_lo_deriv inv_leak delta_t k -
      ∑ j ∈ (Finset.range k).attach,
        leakCorr2 mu sig2 b_lo b_up b_lo_deriv inv_leak delta_t k_max k j.1
          (G j).1 (G j).2
    (max g1_k 0, max g2_k 0)
termination_by k => k
decreasing_by
  exact Finset.mem_range.mp j.2

/-! ### Symmetric-bound solver `ddm_fpt` (lines 300-394) -/

/-- Scratch `norm_sqrt_t[j] = 1 / sqrt(2 pi delta_t (j+1))` (lines 338-341),
written in the source as `1 / sqrt(pi_delta_t_2 * (j + 1))` with
`pi_delta_t_2 = PI * (2 * delta_t)`. -/
noncomputable def norm_sqrt_t (delta_t : ℝ) (j : ℕ) : ℝ :=
  1 / Real.sqrt (Real.pi * (2 * delta_t) * ((j : ℝ) + 1))

/-- Scratch `norm_t[j] = 1 / (delta_t * (j+1))` (lines 339-342). -/
noncomputable def norm_t (delta_t : ℝ) (j : ℕ) : ℝ :=
  1 / (delta_t * ((j : ℝ) + 1))

/-- Scratch array `bound_deriv` as built by `ddm_fpt` (lines 331-336),
`ddm_fpt_const_mu` (lines 436-439) and `ddm_fpt_w` (lines 710-715): forward
difference quotients, with the last entry a copy of the second-to-last.
This models the array contents for `k_max ≥ 2`; for `k_max = 1` the C code
reads `bound_deriv[-1]` (see `bound_deriv_accesses`). -/
noncomputable def bound_deriv (bound : ℕ → ℝ) (delta_t : ℝ) (k_max j : ℕ) : ℝ :=
  if j + 1 < k_max then (bound (j + 1) - bound j) / delta_t
  else (bound (k_max - 1) - bound (k_max - 2)) / delta_t

/-- Initial value of `g1` in `ddm_fpt` (lines 348-357). -/
noncomputable def fptInit1 (mu bound : ℕ → ℝ) (delta_t : ℝ) (k_max k : ℕ) : ℝ :=
  let bound_k := bound k
  let bound_deriv_k1 := bound_deriv bound delta_t k_max k - mu k
  let cum_mu_k := cum_mu mu delta_t k
  let norm_t_k := norm_t delta_t k
  let norm_sqrt_t_k := norm_sqrt_t delta_t k
  (-norm_sqrt_t_k *
      Real.exp (-0.5 * (bound_k - cum_mu_k) * (bound_k - cum_mu_k) * norm_t_k) *
      (bound_deriv_k1 - (bound_k - cum_mu_k) * norm_t_k))

/-- Initial value of `g2` in `ddm_fpt` (lines 350, 358-360). -/
noncomputable def fptInit2 (mu bound : ℕ → ℝ) (delta_t : ℝ) (k_max k : ℕ) : ℝ :=
  let bound_k := bound k
  let bound_deriv_k2 := -bound_deriv bound delta_t k_max k - mu k
  let cum_mu_k := cum_mu mu delta_t k
  let norm_t_k := norm_t delta_t k
  let norm_sqrt_t_k := norm_sqrt_t delta_t k
  norm_sqrt_t_k *
      Real.exp (-0.5 * (-bound_k - cum_mu_k) * (-bound_k - cum_mu_k) * norm_t_k) *
      (bound_deriv_k2 - (-bound_k - cum_mu_k) * norm_t_k)

/-- Correction term added to `g1_k` in `ddm_fpt` (lines 362-375). -/
noncomputable def fptCorr1 (mu bound : ℕ → ℝ) (delta_t : ℝ) (k_max k j : ℕ)
    (g1j g2j : ℝ) : ℝ :=
  let bound_k := bound k
  let bound_j := bound j
  let bound_deriv_k1 := bound_deriv bound delta_t k_max k - mu k
  let cum_mu_k_j := cum_mu mu delta_t k - cum_mu mu delta_t j
  let diff1 := bound_k - bound_j - cum_mu_k_j
  let diff2 := bound_k + bound_j - cum_mu_k_j
  let norm_t_j := norm_t delta_t (k - j - 1)
  let norm_sqrt_t_j := norm_sqrt_t delta_t (k - j - 1)
  delta_t * norm_sqrt_t_j *
    (g1j * Real.exp (-0.5 * diff1 * diff1 * norm_t_j) *
        (bound_deriv_k1 - diff1 * norm_t_j) +
      g2j * Real.exp (-0.5 * diff2 * diff2 * norm_t_j) *
        (bound_deriv_k1 - diff2 * norm_t_j))

/-- Correction term subtracted from `g2_k` in `ddm_fpt` (lines 376-382). -/
noncomputable def fptCorr2 (mu bound : ℕ → ℝ) (delta_t : ℝ) (k_max k j : ℕ)
    (g1j g2j : ℝ) : ℝ :=
  let bound_k := bound k
  let bound_j := bound j
  let bound_deriv_k2 := -bound_deriv bound delta_t k_max k - mu k
  let cum_mu_k_j := cum_mu mu delta_t k - cum_mu mu delta_t j
  let diff1 := -bound_k - bound_j - cum_mu_k_j
  let diff2 := -bound_k + bound_j - cum_mu_k_j
  let norm_t_j := norm_t delta_t (k - j - 1)
  let norm_sqrt_t_j := norm_sqrt_t delta_t (k - j - 1)
  delta_t * norm_sqrt_t_j *
    (g1j * Real.exp (-0.5 * diff1 * diff1 * norm_t_j) *
        (bound_deriv_k2 - diff1 * norm_t_j) +
      g2j * Real.exp (-0.5 * diff2 * diff2 * norm_t_j) *
        (bound_deriv_k2 - diff2 * norm_t_j))

/-- The pair of stored densities `(g1[k], g2[k])` computed by `ddm_fpt` on
the success path (lines 345-387). -/
noncomputable def ddm_fpt (mu bound : ℕ → ℝ) (delta_t : ℝ) (k_max : ℕ) :
    ℕ → ℝ × ℝ
  | k =>
    let G := fun j : {x // x ∈ Finset.range k} =>
      ddm_fpt mu bound delta_t k_max j.1
    let g1_k := fptInit1 mu bound delta_t k_max k +
      ∑ j ∈ (Finset.range k).attach,
        fptCorr1 mu bound delta_t k_max k j.1 (G j).1 (G j).2
    let g2_k := fptInit2 mu bound delta_t k_max k -
      ∑ j ∈ (Finset.range k).attach,
        fptCorr2 mu bound delta_t k_max k j.1 (G j).1 (G j).2
    (max g1_k 0, max g2_k 0)
termination_by k => k
decreasing_by
  exact Finset.mem_range.mp j.2

/-! ### Constant-drift solver `ddm_fpt_const_mu` (lines 408-486) -/

/-- Initial value of `g1` in `ddm_fpt_const_mu` (lines 450-460), with
`cum_mu_k = (k + 1) * delta_t * mu`. -/
noncomputable def constMuInit1 (mu : ℝ) (bound : ℕ → ℝ) (delta_t : ℝ)
    (k_max k : ℕ) : ℝ :=
  let bound_k := bound k
  let bound_deriv_k1 := bound_deriv bound delta_t k_max k - mu
  let cum_mu_k := ((k : ℝ) + 1) * (delta_t * mu)
  let norm_t_k := norm_t delta_t k
  let norm_sqrt_t_k := norm_sqrt_t delta_t k
  (-norm_sqrt_t_k *
      Real.exp (-0.5 * (bound_k - cum_mu_k) * (bound_k - cum_mu_k) * norm_t_k) *
      (bound_deriv_k1 - (bound_k - cum_mu_k) * norm_t_k))

/-- Correction term added to `g1_k` in `ddm_fpt_const_mu` (lines 462-476);
the second summand uses the reflected derivative `bound_deriv_k2`
(line 475). -/
noncomputable def constMuCorr (mu : ℝ) (bound : ℕ → ℝ) (delta_t : ℝ)
    (k_max k j : ℕ) (g1j g2j : ℝ) : ℝ :=
  let bound_k := bound k
  let bound_j := bound j
  let bound_deriv_k1 := bound_deriv bound delta_t k_max k - mu
  let bound_deriv_k2 := -bound_deriv bound delta_t k_max k - mu
  let cum_mu_k_j := ((k : ℝ) - (j : ℝ)) * (delta_t * mu)
  let diff1 := bound_k - bound_j - cum_mu_k_j
  let diff2 := bound_k + bound_j - cum_mu_k_j
  let norm_t_j := norm_t delta_t (k - j - 1)
  let norm_sqrt_t_j := norm_sqrt_t delta_t (k - j - 1)
  delta_t * norm_sqrt_t_j *
    (g1j * Real.exp (-0.5 * diff1 * diff1 * norm_t_j) *
        (bound_deriv_k1 - diff1 * norm_t_j) +
      g2j * Real.exp (-0.5 * diff2 * diff2 * norm_t_j) *
        (bound_deriv_k2 - diff2 * norm_t_j))

/-- The pair of stored densities `(g1[k], g2[k])` computed by
`ddm_fpt_const_mu` (lines 449-480): only `g1` is accumulated; the stored
`g2[k]` is `MAX(g1_k * exp(-2 mu * bound[k]), 0)` built from the raw
(unclamped) `g1_k` (line 479). -/
noncomputable def ddm_fpt_const_mu (mu : ℝ) (bound : ℕ → ℝ) (delta_t : ℝ)
    (k_max : ℕ) : ℕ → ℝ × ℝ
  | k =>
    let G := fun j : {x // x ∈ Finset.range k} =>
      ddm_fpt_const_mu mu bound delta_t k_max j.1
    let g1_k := constMuInit1 mu bound delta_t k_max k +
      ∑ j ∈ (Finset.range k).attach,
        constMuCorr mu bound delta_t k_max k j.1 (G j).1 (G j).2
    let mu_2 := -2 * mu
    (max g1_k 0, max (g1_k * Real.exp (mu_2 * bound k)) 0)
termination_by k => k
decreasing_by
  exact Finset.mem_range.mp j.2

/-! ### Weighted-drift solver `ddm_fpt_w` (lines 683-759) -/

/-- Squared drift `a2[j] = mu[j] * mu[j]` (lines 708, 711). -/
noncomputable def a2 (mu : ℕ → ℝ) (j : ℕ) : ℝ := mu j * mu j

/-- Cumulative squared drift `A[j]` (lines 708-712): running sum of
`delta_t * a2[j]`. -/
noncomputable def A (mu : ℕ → ℝ) (delta_t : ℝ) : ℕ → ℝ
  | 0 => delta_t * a2 mu 0
  | j + 1 => A mu delta_t j + delta_t * a2 mu (j + 1)

/-- Initial value of `g1` in `ddm_fpt_w` (lines 720-730). -/
noncomputable def wInit (mu bound : ℕ → ℝ) (k delta_t : ℝ) (n_max n : ℕ) : ℝ :=
  let bound_n := bound n
  let a2_n := a2 mu n
  let A_n := A mu delta_t n
  let bound_deriv_n := bound_deriv bound delta_t n_max n
  let diff1 := bound_n - k * A_n
  let sqrt_A_n := Real.sqrt (2 * Real.pi * A_n)
  let tmp := bound_deriv_n - bound_n / A_n * a2_n
  (-Real.exp (-0.5 * diff1 * diff1 / A_n) / sqrt_A_n * tmp)

/-- Correction term added to `g1_n` in `ddm_fpt_w` (lines 733-749). -/
noncomputable def wCorr (mu bound : ℕ → ℝ) (k delta_t : ℝ) (n_max n j : ℕ)
    (g1j g2j : ℝ) : ℝ :=
  let bound_n := bound n
  let bound_j := bound j
  let a2_n := a2 mu n
  let bound_deriv_n := bound_deriv bound delta_t n_max n
  let A_diff := A mu delta_t n - A mu delta_t j
  let sqrt_A_diff := Real.sqrt (2 * Real.pi * A_diff)
  let diff1 := bound_n - bound_j
  let diff2 := bound_n + bound_j
  let diff1_A := diff1 - k * A_diff
  let diff2_A := diff2 - k * A_diff
  delta_t / sqrt_A_diff *
    (g1j * Real.exp (-0.5 * diff1_A * diff1_A / A_diff) *
        (bound_deriv_n - a2_n * diff1 / A_diff) +
      g2j * Real.exp (-0.5 * diff2_A * diff2_A / A_diff) *
        (bound_deriv_n - a2_n * diff2 / A_diff))

/-- The pair of stored densities `(g1[n], g2[n])` computed by `ddm_fpt_w` on
the success path (lines 718-753): only `g1` is accumulated; the stored
`g2[n]` is `MAX(g1_n * exp(-2 k * bound[n]), 0)` built from the raw
(unclamped) `g1_n` (line 752). -/
noncomputable def ddm_fpt_w (mu bound : ℕ → ℝ) (k delta_t : ℝ) (n_max : ℕ) :
    ℕ → ℝ × ℝ
  | n =>
    let G := fun j : {x // x ∈ Finset.range n} =>
      ddm_fpt_w mu bound k delta_t n_max j.1
    let g1_n := wInit mu bound k delta_t n_max n +
      ∑ j ∈ (Finset.range n).attach,
        wCorr mu bound k delta_t n_max n j.1 (G j).1 (G j).2
    let k_2 := -2 * k
    (max g1_n 0, max (g1_n * Real.exp (k_2 * bound n)) 0)
termination_by n => n
decreasing_by
  exact Finset.mem_range.mp j.2

end DdmFpt

namespace DdmFpt

open Filter Topology

/-! ## Theorems -/

/-- Claim C1: for `ddm_fpt_full_leak` the spec requires that a failure of any
of the four scratch allocations yields the `-1` failure return with outputs
untouched and all successful allocations freed.  The code only checks
`cum_mu` and `cum_sig2`: when `disc` fails (the others succeeding) it does
not take the failure return but dereferences the NULL `disc` pointer. -/
theorem C1_leak_alloc_missing_null_check :
    ddm_fpt_full_leak_alloc true true false true = LeakAllocOutcome.derefNull ∧
      ddm_fpt_full_leak_alloc true true false true ≠ LeakAllocOutcome.retFail ∧
      ddm_fpt_full_leak_alloc true true true false = LeakAllocOutcome.derefNull := by
  decide

/-- Claim C7: the `disc2` fill loop of `ddm_fpt_full_leak` at `k_max = 3`
reads `disc[3]`, one element past the end of the `disc` allocation (which has
`k_max = 3` elements), so the discount values it stores are built from an
out-of-bounds read. -/
theorem C7_disc2_fill_reads_out_of_bounds :
    ∃ i ∈ disc2_fill_reads 3, 3 ≤ i := by
  decide

/-- Claim C10: in `ddm_fpt`, `ddm_fpt_const_mu` and `ddm_fpt_w`, all accesses
to the `bound_deriv` scratch array are within `[0, k_max)` when `k_max ≥ 2`,
while for `k_max = 1` the copy of the second-to-last derivative reads the
out-of-bounds index `-1`. -/
theorem C10_bound_deriv_bounds :
    (∀ k_max : ℕ, 2 ≤ k_max →
      ∀ i ∈ bound_deriv_accesses k_max, 0 ≤ i ∧ i < (k_max : ℤ)) ∧
      ((-1 : ℤ) ∈ bound_deriv_accesses 1 ∧ ¬(0 : ℤ) ≤ (-1 : ℤ)) := by
  constructor
  · intro k_max h i hi
    rcases List.mem_append.1 hi with h4 | h4
    · rcases List.mem_append.1 h4 with h3 | h3
      · rcases List.mem_append.1 h3 with h1 | h2
        · obtain ⟨j, hj, rfl⟩ := List.mem_map.1 h1
          have := List.mem_range.1 hj
          omega
        · rw [List.mem_singleton] at h2
          subst h2
          omega
      · rw [List.mem_singleton] at h3
        subst h3
        omega
    · obtain ⟨j, hj, rfl⟩ := List.mem_map.1 h4
      have := List.mem_range.1 hj
      omega
  · exact ⟨by decide, by decide⟩

/-- Witness for C10 at the concrete sizes `k_max = 2` and `k_max = 1`. -/
theorem C10_bound_deriv_bounds_witness :
    (∀ i ∈ bound_deriv_accesses 2, 0 ≤ i ∧ i < (2 : ℤ)) ∧
      (-1 : ℤ) ∈ bound_deriv_accesses 1 :=
  ⟨C10_bound_deriv_bounds.1 2 (by decide), C10_bound_deriv_bounds.2.1⟩

/-- Claim C6: `mnorm` is required (by the spec and by its own comment,
lines 764-768) to leave both sequences non-negative.  On the input
`g1 = [10, 0]`, `g2 = [0, 0]`, `n = 2`, `delta_t = 1` the adjustment of the
last element makes `g1[1] = -9 < 0`. -/
theorem C6_mnorm_leaves_negative_element :
    (mnorm [10, 0] [0, 0] 1).1 = [10, -9] ∧ ((-9 : ℝ) < 0) := by
  constructor
  · norm_num [mnorm, clampNeg]
  · norm_num

/-- Claim C5: `fpt_asymfastseries(0, w, tol)` and `fpt_symfastseries(0, tol)`
return exactly 0 (for any fuel, any `w`, any `tol`). -/
theorem C5_fastseries_at_zero (fuel : ℕ) (w tol : ℝ) :
    fpt_asymfastseries fuel 0 w tol = some 0 ∧
      fpt_symfastseries fuel 0 tol = some 0 := by
  constructor <;> simp [fpt_asymfastseries, fpt_symfastseries]

/-- Claim C9: in `ddm_fpt`, `ddm_fpt_const_mu` and `ddm_fpt_w` (which all
build the scratch array modelled by `bound_deriv`), for `k_max ≥ 2` the
derivative at the last grid step is a copy of the one at the second-to-last
step, which is the forward difference `(bound[k_max-1] - bound[k_max-2]) /
delta_t`, and every earlier entry is the forward difference at its own
index. -/
theorem C9_bound_deriv_edge_rule (bound : ℕ → ℝ) (delta_t : ℝ) (k_max : ℕ)
    (h : 2 ≤ k_max) :
    bound_deriv bound delta_t k_max (k_max - 1) =
        bound_deriv bound delta_t k_max (k_max - 2) ∧
      bound_deriv bound delta_t k_max (k_max - 2) =
        (bound (k_max - 1) - bound (k_max - 2)) / delta_t ∧
      ∀ j, j < k_max - 1 →
        bound_deriv bound delta_t k_max j = (bound (j + 1) - bound j) / delta_t := by
  have h1 : ¬(k_max - 1 + 1 < k_max) := by omega
  have h2 : k_max - 2 + 1 < k_max := by omega
  have h3 : k_max - 2 + 1 = k_max - 1 := by omega
  refine ⟨?_, ?_, ?_⟩
  · rw [bound_deriv, if_neg h1, bound_deriv, if_pos h2, h3]
  · rw [bound_deriv, if_pos h2, h3]
  · intro j hj
    rw [bound_deriv, if_pos (by omega)]

/-- Witness for C9 at `bound = const 0`, `delta_t = 1`, `k_max = 2`. -/
theorem C9_bound_deriv_edge_rule_witness :
    bound_deriv (fun _ => (0 : ℝ)) 1 2 (2 - 1) =
        bound_deriv (fun _ => (0 : ℝ)) 1 2 (2 - 2) ∧
      bound_deriv (fun _ => (0 : ℝ)) 1 2 (2 - 2) =
        ((fun _ => (0 : ℝ)) (2 - 1) - (fun _ => (0 : ℝ)) (2 - 2)) / 1 ∧
      ∀ j, j < 2 - 1 →
        bound_deriv (fun _ => (0 : ℝ)) 1 2 j =
          ((fun _ => (0 : ℝ)) (j + 1) - (fun _ => (0 : ℝ)) j) / 1 :=
  C9_bound_deriv_edge_rule (fun _ => (0 : ℝ)) 1 2 (by norm_num)

/-- Clamping commutes with multiplication by a (positive) exponential:
the stored `g2 = MAX(raw_g1 * exp(c), 0)` equals the stored
`g1 = MAX(raw_g1, 0)` times `exp(c)`, whatever the sign of `raw_g1`. -/
lemma max_mul_exp (r c : ℝ) : max (r * Real.exp c) 0 = max r 0 * Real.exp c := by
  rcases le_total 0 r with h | h
  · rw [max_eq_left (mul_nonneg h (Real.exp_pos c).le), max_eq_left h]
  · have hr : r * Real.exp c ≤ 0 := by nlinarith [Real.exp_pos c]
    rw [max_eq_right hr, max_eq_right h, zero_mul]

/-- Claim C3: for every step `n`, the lower density stored by `ddm_fpt_w`
equals the stored upper density times `exp(-2 k bound[n])`, exactly — also
when the raw value was negative and both entries were clamped. -/
theorem C3_w_reflection_identity (mu bound : ℕ → ℝ) (k delta_t : ℝ)
    (n_max n : ℕ) :
    (ddm_fpt_w mu bound k delta_t n_max n).2 =
      (ddm_fpt_w mu bound k delta_t n_max n).1 * Real.exp (-2 * k * bound n) := by
  rw [ddm_fpt_w]
  dsimp only
  exact max_mul_exp _ _

/-! ### Leak-free degeneracy lemmas for C2 -/

lemma exp_leak_zero (delta_t : ℝ) : exp_leak delta_t 0 = 1 := by
  simp [exp_leak]

lemma exp2_leak_zero (delta_t : ℝ) : exp2_leak delta_t 0 = 1 := by
  simp [exp2_leak]

lemma cum_mu_leak_zero (mu : ℕ → ℝ) (delta_t : ℝ) :
    ∀ j, cum_mu_leak mu delta_t 0 j = cum_mu mu delta_t j
  | 0 => rfl
  | j + 1 => by
    rw [cum_mu_leak, cum_mu, exp_leak_zero, one_mul,
      cum_mu_leak_zero mu delta_t j]

lemma cum_sig2_leak_zero (sig2 : ℕ → ℝ) (delta_t : ℝ) :
    ∀ j, cum_sig2_leak sig2 delta_t 0 j = cum_sig2 sig2 delta_t j
  | 0 => rfl
  | j + 1 => by
    rw [cum_sig2_leak, cum_sig2, exp2_leak_zero, one_mul,
      cum_sig2_leak_zero sig2 delta_t j]

lemma disc_zero (delta_t : ℝ) : ∀ j, disc delta_t 0 j = 1
  | 0 => exp_leak_zero delta_t
  | j + 1 => by rw [disc, disc_zero delta_t j, exp_leak_zero, one_mul]

lemma disc2_zero (delta_t : ℝ) (k_max : ℕ) : ∀ j, disc2 delta_t 0 k_max j = 1
  | 0 => by rw [disc2]; exact disc_zero delta_t 1
  | j + 1 => by
    rw [disc2]
    split
    · exact disc_zero delta_t _
    · rw [disc2_zero delta_t k_max j, exp2_leak_zero, one_mul]

lemma leakInit1_zero (mu sig2 b_up b_up_deriv : ℕ → ℝ) (delta_t : ℝ) (k : ℕ) :
    leakInit1 mu sig2 b_up b_up_deriv 0 delta_t k =
      fullInit1 mu sig2 b_up b_up_deriv delta_t k := by
  simp [leakInit1, fullInit1, cum_mu_leak_zero, cum_sig2_leak_zero]

lemma leakInit2_zero (mu sig2 b_lo b_lo_deriv : ℕ → ℝ) (delta_t : ℝ) (k : ℕ) :
    leakInit2 mu sig2 b_lo b_lo_deriv 0 delta_t k =
      fullInit2 mu sig2 b_lo b_lo_deriv delta_t k := by
  simp [leakInit2, fullInit2, cum_mu_leak_zero, cum_sig2_leak_zero]

lemma leakCorr1_zero (mu sig2 b_lo b_up b_up_deriv : ℕ → ℝ) (delta_t : ℝ)
    (k_max k j : ℕ) (g1j g2j : ℝ) :
    leakCorr1 mu sig2 b_lo b_up b_up_deriv 0 delta_t k_max k j g1j g2j =
      fullCorr1 mu sig2 b_lo b_up b_up_deriv delta_t k j g1j g2j := by
  simp [leakCorr1, fullCorr1, disc_zero, disc2_zero, cum_mu_leak_zero,
    cum_sig2_leak_zero]

lemma leakCorr2_zero (mu sig2 b_lo b_up b_lo_deriv : ℕ → ℝ) (delta_t : ℝ)
    (k_max k j : ℕ) (g1j g2j : ℝ) :
    leakCorr2 mu sig2 b_lo b_up b_lo_deriv 0 delta_t k_max k j g1j g2j =
      fullCorr2 mu sig2 b_lo b_up b_lo_deriv delta_t k j g1j g2j := by
  simp [leakCorr2, fullCorr2, disc_zero, disc2_zero, cum_mu_leak_zero,
    cum_sig2_leak_zero]

/-- In the IDEALIZED model (where `disc2` substitutes the intended value for
the out-of-bounds read at odd `k_max`), the leaky solver at `inv_leak = 0`
computes, step by step, exactly the quantities of the leak-free solver.
This is the intended leak-degeneracy behaviour; the program itself only
realizes the idealized `disc2` when every fill read is in bounds, see
`disc2_mem` and `disc2_fill_reads`. -/
lemma ddm_fpt_full_leak_zero (mu sig2 b_lo b_up b_lo_deriv b_up_deriv : ℕ → ℝ)
    (delta_t : ℝ) (k_max : ℕ) : ∀ k,
    ddm_fpt_full_leak mu sig2 b_lo b_up b_lo_deriv b_up_deriv 0 delta_t k_max k =
      ddm_fpt_full mu sig2 b_lo b_up b_lo_deriv b_up_deriv delta_t k := by
  intro k
  induction k using Nat.strong_induction_on with
  | _ k ih =>
    rw [ddm_fpt_full_leak, ddm_fpt_full]
    dsimp only
    have h1 :
        (∑ j ∈ (Finset.range k).attach,
          leakCorr1 mu sig2 b_lo b_up b_up_deriv 0 delta_t k_max k j.1
            (ddm_fpt_full_leak mu sig2 b_lo b_up b_lo_deriv b_up_deriv 0 delta_t
              k_max j.1).1
            (ddm_fpt_full_leak mu sig2 b_lo b_up b_lo_deriv b_up_deriv 0 delta_t
              k_max j.1).2) =
        ∑ j ∈ (Finset.range k).attach,
          fullCorr1 mu sig2 b_lo b_up b_up_deriv delta_t k j.1
            (ddm_fpt_full mu sig2 b_lo b_up b_lo_deriv b_up_deriv delta_t j.1).1
            (ddm_fpt_full mu sig2 b_lo b_up b_lo_deriv b_up_deriv delta_t j.1).2 :=
      Finset.sum_congr rfl fun j _ => by
        rw [ih j.1 (Finset.mem_range.mp j.2), leakCorr1_zero]
    have h2 :
        (∑ j ∈ (Finset.range k).attach,
          leakCorr2 mu sig2 b_lo b_up b_lo_deriv 0 delta_t k_max k j.1
            (ddm_fpt_full_leak mu sig2 b_lo b_up b_lo_deriv b_up_deriv 0 delta_t
              k_max j.1).1
            (ddm_fpt_full_leak mu sig2 b_lo b_up b_lo_deriv b_up_deriv 0 delta_t
              k_max j.1).2) =
        ∑ j ∈ (Finset.range k).attach,
          fullCorr2 mu sig2 b_lo b_up b_lo_deriv delta_t k j.1
            (ddm_fpt_full mu sig2 b_lo b_up b_lo_deriv b_up_deriv delta_t j.1).1
            (ddm_fpt_full mu sig2 b_lo b_up b_lo_deriv b_up_deriv delta_t j.1).2 :=
      Finset.sum_congr rfl fun j _ => by
        rw [ih j.1 (Finset.mem_range.mp j.2), leakCorr2_zero]
    rw [h1, h2, leakInit1_zero, leakInit2_zero]

/-- Claim C2: the spec requires `ddm_fpt_full_leak` with `inv_leak = 0` to
reproduce `ddm_fpt_full` exactly for every `k_max > 0`.  In the idealized
model this equality is provable (`ddm_fpt_full_leak_zero`), but the program
realizes that model only when every `disc2` fill read is in bounds: at
`k_max = 3` the fill loop's `j = 1` iteration reads the out-of-bounds
`disc[3]` (see `disc2_fill_reads`), an unspecified value `junk`, and the
memory-faithful `disc2_mem` stores it verbatim at index 1 — the very entry
the correction terms consume at `k = 2`, `j = 0` (index `k - j - 1 = 1`)
even when `inv_leak = 0`.  Two different unspecified values give two
different scratch entries, so the output of the compiled code at odd
`k_max ≥ 3` is not determined by the inputs and the claimed exact equality
is not guaranteed. -/
theorem C2_leak_scratch_from_oob_read :
    (∀ junk : ℝ, disc2_mem 1 0 3 junk 1 = junk) ∧
      disc2_mem 1 0 3 0 1 ≠ disc2_mem 1 0 3 1 1 := by
  have hval : ∀ junk : ℝ, disc2_mem 1 0 3 junk 1 = junk := by
    intro junk
    norm_num [disc2_mem]
  refine ⟨hval, ?_⟩
  rw [hval 0, hval 1]
  norm_num

/-- Claim C4: every density value stored by any of the six solvers is
non-negative, thanks to the final clamping (`MAX(_, 0)`) each of them
applies before storing. -/
theorem C4_outputs_nonneg :
    (∀ mu sig2 b_lo b_up b_lo_deriv b_up_deriv : ℕ → ℝ, ∀ delta_t : ℝ, ∀ k : ℕ,
        0 ≤ (ddm_fpt_full mu sig2 b_lo b_up b_lo_deriv b_up_deriv delta_t k).1 ∧
        0 ≤ (ddm_fpt_full mu sig2 b_lo b_up b_lo_deriv b_up_deriv delta_t k).2) ∧
    (∀ mu sig2 b_lo b_up b_lo_deriv b_up_deriv : ℕ → ℝ,
        ∀ inv_leak delta_t : ℝ, ∀ k_max k : ℕ,
        0 ≤ (ddm_fpt_full_leak mu sig2 b_lo b_up b_lo_deriv b_up_deriv inv_leak
              delta_t k_max k).1 ∧
        0 ≤ (ddm_fpt_full_leak mu sig2 b_lo b_up b_lo_deriv b_up_deriv inv_leak
              delta_t k_max k).2) ∧
    (∀ mu bound : ℕ → ℝ, ∀ delta_t : ℝ, ∀ k_max k : ℕ,
        0 ≤ (ddm_fpt mu bound delta_t k_max k).1 ∧
        0 ≤ (ddm_fpt mu bound delta_t k_max k).2) ∧
    (∀ mu : ℝ, ∀ bound : ℕ → ℝ, ∀ delta_t : ℝ, ∀ k_max k : ℕ,
        0 ≤ (ddm_fpt_const_mu mu bound delta_t k_max k).1 ∧
        0 ≤ (ddm_fpt_const_mu mu bound delta_t k_max k).2) ∧
    (∀ fuel : ℕ, ∀ mu bound delta_t : ℝ, ∀ i : ℕ,
        0 ≤ ((ddm_fpt_const fuel mu bound delta_t i).getD (0, 0)).1 ∧
        0 ≤ ((ddm_fpt_const fuel mu bound delta_t i).getD (0, 0)).2) ∧
    (∀ mu bound : ℕ → ℝ, ∀ k delta_t : ℝ, ∀ n_max n : ℕ,
        0 ≤ (ddm_fpt_w mu bound k delta_t n_max n).1 ∧
        0 ≤ (ddm_fpt_w mu bound k delta_t n_max n).2) := by
  refine ⟨?_, ?_, ?_, ?_, ?_, ?_⟩
  · intro mu sig2 b_lo b_up b_lo_deriv b_up_deriv delta_t k
    rw [ddm_fpt_full]
    exact ⟨le_max_right _ _, le_max_right _ _⟩
  · intro mu sig2 b_lo b_up b_lo_deriv b_up_deriv inv_leak delta_t k_max k
    rw [ddm_fpt_full_leak]
    exact ⟨le_max_right _ _, le_max_right _ _⟩
  · intro mu bound delta_t k_max k
    rw [ddm_fpt]
    exact ⟨le_max_right _ _, le_max_right _ _⟩
  · intro mu bound delta_t k_max k
    rw [ddm_fpt_const_mu]
    exact ⟨le_max_right _ _, le_max_right _ _⟩
  · intro fuel mu bound delta_t i
    rcases h : ddm_fpt_const fuel mu bound delta_t i with _ | p
    · simp
    · obtain ⟨g, -, hg⟩ := Option.map_eq_some'.1 h
      simp only [Option.getD_some]
      rw [← hg]
      exact ⟨le_max_right _ _, le_max_right _ _⟩
  · intro mu bound k delta_t n_max n
    rw [ddm_fpt_w]
    exact ⟨le_max_right _ _, le_max_right _ _⟩

/-! ### Termination of the series-accumulation loops (claim C8) -/

lemma tendsto_id_mul_exp_neg :
    Tendsto (fun x : ℝ => x * Real.exp (-x)) atTop (𝓝 0) := by
  simpa using Real.tendsto_pow_mul_exp_neg_atTop_nhds_zero 1

/-- The Gaussian-type terms `x * exp(-x*x/a)` vanish at infinity for any
positive scale `a`. -/
lemma tendsto_mul_exp_neg_sq_div (a : ℝ) (ha : 0 < a) :
    Tendsto (fun x : ℝ => x * Real.exp (-x * x / a)) atTop (𝓝 0) := by
  have hupper : ∀ᶠ x : ℝ in atTop,
      x * Real.exp (-x * x / a) ≤ x * Real.exp (-x) := by
    filter_upwards [eventually_ge_atTop a, eventually_ge_atTop (0 : ℝ)]
      with x hxa hx0
    have hle : -x * x / a ≤ -x := by
      rw [neg_mul, neg_div, neg_le_neg_iff, le_div_iff₀ ha]
      nlinarith
    exact mul_le_mul_of_nonneg_left (Real.exp_le_exp.2 hle) hx0
  have hlower : ∀ᶠ x : ℝ in atTop, (0 : ℝ) ≤ x * Real.exp (-x * x / a) := by
    filter_upwards [eventually_ge_atTop (0 : ℝ)] with x hx0
    exact mul_nonneg hx0 (Real.exp_pos _).le
  exact tendsto_of_tendsto_of_tendsto_of_le_of_le' tendsto_const_nhds
    tendsto_id_mul_exp_neg hlower hupper

/-- Variant for terms written as `x * exp(-(x*x)*a)`. -/
lemma tendsto_mul_exp_neg_sq_mul (a : ℝ) (ha : 0 < a) :
    Tendsto (fun x : ℝ => x * Real.exp (-(x * x) * a)) atTop (𝓝 0) := by
  refine (tendsto_mul_exp_neg_sq_div a⁻¹ (by positivity)).congr fun x => ?_
  congr 1
  congr 1
  rw [div_eq_mul_inv, inv_inv]
  ring

lemma tendsto_affine_natCast (w c : ℝ) (hc : 0 < c) :
    Tendsto (fun n : ℕ => w + c * (n : ℝ)) atTop atTop :=
  tendsto_atTop_add_const_left _ w
    ((tendsto_natCast_atTop_atTop).const_mul_atTop hc)

/-- Some first-half term of the `fpt_asymshortt` loop (index `k = 1 + n`)
eventually falls below any positive threshold. -/
lemma exists_shortIncr_lt (t2 w tolb : ℝ) (ht2 : 0 < t2) (hw : 0 ≤ w)
    (htolb : 0 < tolb) : ∃ n : ℕ, |shortIncr t2 w (1 + n)| < tolb := by
  have hcomp : Tendsto (fun n : ℕ => shortIncr t2 w n) atTop (𝓝 0) := by
    have h := (tendsto_mul_exp_neg_sq_div t2 ht2).comp
      (tendsto_affine_natCast w 2 two_pos)
    exact h.congr fun n => rfl
  have hev := hcomp.eventually_lt_const htolb
  rw [eventually_atTop] at hev
  obtain ⟨N, hN⟩ := hev
  refine ⟨N, ?_⟩
  have hpos : (0 : ℝ) ≤ shortIncr t2 w (1 + N) := by
    rw [shortIncr]
    have hc : (0 : ℝ) ≤ w + 2 * ((1 + N : ℕ) : ℝ) := by
      have : (0 : ℝ) ≤ 2 * ((1 + N : ℕ) : ℝ) := by positivity
      linarith
    exact mul_nonneg hc (Real.exp_pos _).le
  rw [abs_of_nonneg hpos]
  exact hN (1 + N) (by omega)

/-- Some term of the `fpt_asymlongt` loop (index `k = 1 + n`) eventually
falls below any positive threshold (the `sin` factor is bounded by 1). -/
lemma exists_longIncr_lt (t w tolpi : ℝ) (ht : 0 < t) (htolpi : 0 < tolpi) :
    ∃ n : ℕ, |longIncr t w (1 + n)| < tolpi := by
  have hcomp : Tendsto
      (fun n : ℕ => (n : ℝ) *
        Real.exp (-(((n : ℝ) * Real.pi) * ((n : ℝ) * Real.pi)) * t / 2))
      atTop (𝓝 0) := by
    have ha : (0 : ℝ) < Real.pi * Real.pi * t / 2 := by positivity
    have h := (tendsto_mul_exp_neg_sq_mul (Real.pi * Real.pi * t / 2) ha).comp
      (tendsto_natCast_atTop_atTop (R := ℝ))
    refine h.congr fun n => ?_
    simp only [Function.comp]
    congr 1
    congr 1
    ring
  have habs : ∀ m : ℕ, |longIncr t w m| ≤ (m : ℝ) *
      Real.exp (-(((m : ℝ) * Real.pi) * ((m : ℝ) * Real.pi)) * t / 2) := by
    intro m
    rw [longIncr, abs_mul]
    have h1 : |(m : ℝ) *
        Real.exp (-(((m : ℝ) * Real.pi) * ((m : ℝ) * Real.pi)) * t / 2)| =
        (m : ℝ) *
          Real.exp (-(((m : ℝ) * Real.pi) * ((m : ℝ) * Real.pi)) * t / 2) :=
      abs_of_nonneg (mul_nonneg (Nat.cast_nonneg m) (Real.exp_pos _).le)
    calc |(m : ℝ) *
          Real.exp (-(((m : ℝ) * Real.pi) * ((m : ℝ) * Real.pi)) * t / 2)| *
            |Real.sin ((m : ℝ) * Real.pi * w)| ≤
        |(m : ℝ) *
          Real.exp (-(((m : ℝ) * Real.pi) * ((m : ℝ) * Real.pi)) * t / 2)| * 1 := by
          gcongr
          exact Real.abs_sin_le_one _
      _ = (m : ℝ) *
          Real.exp (-(((m : ℝ) * Real.pi) * ((m : ℝ) * Real.pi)) * t / 2) := by
          rw [mul_one, h1]
  have hev := hcomp.eventually_lt_const htolpi
  rw [eventually_atTop] at hev
  obtain ⟨N, hN⟩ := hev
  exact ⟨N, lt_of_le_of_lt (habs (1 + N)) (hN (1 + N) (by omega))⟩

/-- Some first-half term of the `fpt_symseries` loop (index `twok = 3 + 4n`)
eventually falls below any positive threshold. -/
lemma exists_symIncr_lt (a tolb : ℝ) (ha : 0 < a) (htolb : 0 < tolb) :
    ∃ n : ℕ, symIncr a (3 + 4 * n) < tolb := by
  have hcast : Tendsto (fun n : ℕ => ((3 + 4 * n : ℕ) : ℝ)) atTop atTop :=
    (tendsto_affine_natCast 3 4 (by norm_num)).congr fun n => by push_cast; ring
  have hcomp : Tendsto (fun n : ℕ => symIncr a (3 + 4 * n)) atTop (𝓝 0) := by
    have h := (tendsto_mul_exp_neg_sq_mul a ha).comp hcast
    exact h.congr fun n => rfl
  have hev := hcomp.eventually_lt_const htolb
  rw [eventually_atTop] at hev
  obtain ⟨N, hN⟩ := hev
  exact ⟨N, hN N le_rfl⟩

/-- If the first-half stopping test of the `fpt_asymshortt` loop fires at
index `k + n`, then `n + 1` iterations starting from index `k` suffice. -/
lemma fpt_asymshorttLoop_isSome (t2 w tolb : ℝ) :
    ∀ (n k : ℕ) (f : ℝ), |shortIncr t2 w (k + n)| < tolb →
      (fpt_asymshorttLoop t2 w tolb (n + 1) k f).isSome := by
  intro n
  induction n with
  | zero =>
    intro k f h
    rw [fpt_asymshorttLoop]
    dsimp only
    rw [if_pos (by simpa using h)]
    rfl
  | succ n ih =>
    intro k f h
    rw [fpt_asymshorttLoop]
    dsimp only
    split
    · rfl
    · split
      · rfl
      · refine ih (k + 1) _ ?_
        have e : k + 1 + n = k + (n + 1) := by omega
        rw [e]
        exact h

/-- If the stopping test of the `fpt_asymlongt` loop fires at index `k + n`,
then `n + 1` iterations starting from index `k` suffice. -/
lemma fpt_asymlongtLoop_isSome (t w tolpi : ℝ) :
    ∀ (n k : ℕ) (f : ℝ), |longIncr t w (k + n)| < tolpi →
      (fpt_asymlongtLoop t w tolpi (n + 1) k f).isSome := by
  intro n
  induction n with
  | zero =>
    intro k f h
    rw [fpt_asymlongtLoop]
    rw [if_pos (by simpa using h)]
    rfl
  | succ n ih =>
    intro k f h
    rw [fpt_asymlongtLoop]
    split
    · rfl
    · refine ih (k + 1) _ ?_
      have e : k + 1 + n = k + (n + 1) := by omega
      rw [e]
      exact h

/-- If the first-half stopping test of the `fpt_symseries` loop fires at
index `twok + 4n`, then `n + 1` iterations starting from `twok` suffice. -/
lemma fpt_symseriesLoop_isSome (a tolb : ℝ) :
    ∀ (n twok : ℕ) (f : ℝ), symIncr a (twok + 4 * n) < tolb →
      (fpt_symseriesLoop a tolb (n + 1) twok f).isSome := by
  intro n
  induction n with
  | zero =>
    intro twok f h
    rw [fpt_symseriesLoop]
    dsimp only
    rw [if_pos (by simpa using h)]
    rfl
  | succ n ih =>
    intro twok f h
    rw [fpt_symseriesLoop]
    dsimp only
    split
    · rfl
    · split
      · rfl
      · refine ih (twok + 4) _ ?_
        have e : twok + 4 + 4 * n = twok + 4 * (n + 1) := by omega
        rw [e]
        exact h

lemma fpt_asymshortt_terminates (t w tol : ℝ) (ht : 0 < t) (hw : 0 ≤ w)
    (htol : 0 < tol) : ∃ fuel, (fpt_asymshortt fuel t w tol).isSome := by
  have hb : (0 : ℝ) < t ^ (-(1.5 : ℝ)) / Real.sqrt (2 * Real.pi) := by
    positivity
  obtain ⟨n, hn⟩ := exists_shortIncr_lt (t * 2) w
    (tol * (t ^ (-(1.5 : ℝ)) / Real.sqrt (2 * Real.pi))) (by linarith) hw
    (mul_pos htol hb)
  refine ⟨n + 1, ?_⟩
  have hsome := fpt_asymshorttLoop_isSome (t * 2) w
    (tol * (t ^ (-(1.5 : ℝ)) / Real.sqrt (2 * Real.pi))) n 1
    (w * Real.exp (-w * w / (t * 2))) hn
  obtain ⟨v, hv⟩ := Option.isSome_iff_exists.1 hsome
  rw [fpt_asymshortt]
  rw [hv]
  rfl

lemma fpt_asymlongt_terminates (t w tol : ℝ) (ht : 0 < t) (htol : 0 < tol) :
    ∃ fuel, (fpt_asymlongt fuel t w tol).isSome := by
  obtain ⟨n, hn⟩ := exists_longIncr_lt t w (tol * Real.pi) ht
    (mul_pos htol Real.pi_pos)
  refine ⟨n + 1, ?_⟩
  have hsome := fpt_asymlongtLoop_isSome t w (tol * Real.pi) n 1 0 hn
  obtain ⟨v, hv⟩ := Option.isSome_iff_exists.1 hsome
  rw [fpt_asymlongt]
  rw [hv]
  rfl

lemma fpt_symseries_terminates (t a b tol : ℝ) (ha : 0 < a) (hb : 0 < b)
    (htol : 0 < tol) : ∃ fuel, (fpt_symseries fuel t a b tol).isSome := by
  obtain ⟨n, hn⟩ := exists_symIncr_lt a (tol * b) ha (mul_pos htol hb)
  refine ⟨n + 1, ?_⟩
  have hsome := fpt_symseriesLoop_isSome a (tol * b) n 3 (Real.exp (-a)) hn
  obtain ⟨v, hv⟩ := Option.isSome_iff_exists.1 hsome
  rw [fpt_symseries]
  rw [hv]
  rfl

/-- Claim C8: for `t > 0`, `tol > 0` and (for the asymmetric case)
`0 < w < 1`, the accumulation loops of `fpt_asymshortt`, `fpt_asymlongt`
and `fpt_symseries` all exit after finitely many iterations (some finite
fuel makes them return a value); for `fpt_symseries` this is stated for the
positive scale parameters `a`, `b` that its callers pass when `t > 0`. -/
theorem C8_series_loops_terminate (t w tol : ℝ) (ht : 0 < t) (htol : 0 < tol)
    (hw0 : 0 < w) (_hw1 : w < 1) :
    (∃ fuel, (fpt_asymshortt fuel t w tol).isSome) ∧
      (∃ fuel, (fpt_asymlongt fuel t w tol).isSome) ∧
      ∀ a b : ℝ, 0 < a → 0 < b →
        ∃ fuel, (fpt_symseries fuel t a b tol).isSome := by
  refine ⟨fpt_asymshortt_terminates t w tol ht hw0.le htol,
    fpt_asymlongt_terminates t w tol ht htol, fun a b ha hb =>
    fpt_symseries_terminates t a b tol ha hb htol⟩

/-- Witness for C8 at `t = 1`, `w = 1/2`, `tol = 1`. -/
theorem C8_series_loops_terminate_witness :
    (∃ fuel, (fpt_asymshortt fuel 1 (1 / 2) 1).isSome) ∧
      (∃ fuel, (fpt_asymlongt fuel 1 (1 / 2) 1).isSome) ∧
      ∀ a b : ℝ, 0 < a → 0 < b →
        ∃ fuel, (fpt_symseries fuel 1 a b 1).isSome :=
  C8_series_loops_terminate 1 (1 / 2) 1 one_pos one_pos (by norm_num)
    (by norm_num)

end DdmFpt
